import Mathlib

set_option linter.unusedVariables false

/-!
Verification of the retrieval-augmented-generation pipeline
(`src/vector_database.py`, `src/chatbot.py`, `src/ollama_chatbot.py`,
`src/robust_vector_db.py`) against its natural-language specification.

The Python code is shallowly embedded: pure functions become Lean
functions over `List Char` / `String` / `ℚ`; the mutable objects
(conversation history, FAISS index state) become explicit state passing;
fallible operations and external collaborators (the Chroma collection,
the completion API, the tokenizer) become `Except` values or function
parameters.  Machine floats are modelled as exact rationals; where the
code divides by a Euclidean norm (an irrational square root) a vector is
represented by the pair (numerators, squared norm), so every definition
stays computable.
-/

namespace RagPipeline

/- ## Text chunker (`TextChunker.chunk_text`, vector_database.py lines 76-138) -/

/-- The characters stripped by Python `str.strip()` (ASCII whitespace). -/
def isPyWhitespace (c : Char) : Bool :=
  c == ' ' || c == '\t' || c == '\n' || c == '\r' || c == '\x0b' || c == '\x0c'

/-- Python `s.strip()` on a list of characters: drop whitespace from both ends. -/
def pyStrip (l : List Char) : List Char :=
  List.rdropWhile isPyWhitespace (l.dropWhile isPyWhitespace)

/-- The word/sentence boundary characters of `chunk_text` (`' \n\t.!?;'`). -/
def isBreakChar (c : Char) : Bool :=
  c == ' ' || c == '\n' || c == '\t' || c == '.' || c == '!' || c == '?' || c == ';'

/-- `DocumentChunk` (vector_database.py lines 65-74).  `content` is the raw
character sequence; `embedding` is the optional vector (exact rationals model
the floats); `createdAt` models `datetime.now()` as an opaque string supplied
by the caller. -/
structure DocumentChunk where
  id : String
  content : List Char
  sourceUrl : String
  title : String
  chunkIndex : Nat
  embedding : Option (List ℚ) := none
  createdAt : Option String := none
deriving DecidableEq

/-- The backward scan of `chunk_text` (lines 115-116):
`while end > start + chunk_size * 0.8 and text[end] not in ' \n\t.!?;': end -= 1`.
`limit5` is `5*start + 4*chunk_size`, so `5*e > limit5` is exactly
`e > start + 0.8*chunk_size` (the float comparison is exact on these integers).
Callers guarantee `e < text.length`; the `getD` default is a break character,
so an out-of-range read would stop the scan (it cannot occur in calls). -/
def scanBack (text : List Char) (limit5 : Nat) (e : Nat) : Nat :=
  if h : 5 * e > limit5 ∧ ¬ isBreakChar (text.getD e ' ') then
    scanBack text limit5 (e - 1)
  else
    e
termination_by e
decreasing_by
  omega

/-- One-past-the-end position chosen for the chunk starting at `start`
(lines 111-118): start from `start + chunk_size`; if that is inside the text,
scan backwards for a break character, and fall back to the hard boundary when
the scan exhausted its 20% budget. -/
def chunkEnd (cs : Nat) (text : List Char) (start : Nat) : Nat :=
  let e0 := start + cs
  if e0 < text.length then
    let e := scanBack text (5 * start + 4 * cs) e0
    if 5 * e ≤ 5 * start + 4 * cs then e0 else e
  else e0

/-- The chunk id `f"{hash(source_url)}_{chunk_index}"`; `pyHash` is the
process-salted Python `hash(source_url)`, supplied as a parameter. -/
def chunkId (pyHash : Int) (chunkIndex : Nat) : String :=
  toString pyHash ++ "_" ++ toString chunkIndex

/-- The `while start < len(text)` loop of `chunk_text` (lines 110-135),
expressed with fuel (each iteration consumes one unit).  The loop slices
`text[start:end]`, strips it, emits the chunk when the stripped content is
nonempty, and continues at `end - chunk_overlap`.  Positions are naturals;
this agrees with the Python integers whenever `end - overlap` stays
nonnegative, which holds for the repository's configuration
(chunk_size 1000, overlap 200, where `end - start > 0.8 * chunk_size`). -/
def chunkLoop (pyHash : Int) (cs ov : Nat) (text : List Char)
    (sourceUrl title : String) (now : Option String) :
    Nat → Nat → Nat → List DocumentChunk
  | 0, _, _ => []
  | fuel + 1, start, chunkIndex =>
    if start < text.length then
      let e := chunkEnd cs text start
      let chunkContent := pyStrip ((text.drop start).take (e - start))
      if chunkContent.isEmpty then
        chunkLoop pyHash cs ov text sourceUrl title now fuel (e - ov) chunkIndex
      else
        { id := chunkId pyHash chunkIndex, content := chunkContent,
          sourceUrl := sourceUrl, title := title, chunkIndex := chunkIndex,
          createdAt := now } ::
        chunkLoop pyHash cs ov text sourceUrl title now fuel (e - ov) (chunkIndex + 1)
    else []

/-- `TextChunker.chunk_text` (lines 84-138): a text no longer than
`chunk_size` is returned whole as a single chunk (index 0, content **not**
stripped); otherwise the sliding-window loop runs.  `text.length + 1` rounds
of fuel dominate the loop's iteration count for the repository configuration,
where `start` strictly increases each iteration. -/
def chunkText (pyHash : Int) (cs ov : Nat) (text : List Char)
    (sourceUrl title : String) (now : Option String) : List DocumentChunk :=
  if text.length ≤ cs then
    [{ id := chunkId pyHash 0, content := text, sourceUrl := sourceUrl,
       title := title, chunkIndex := 0, createdAt := now }]
  else
    chunkLoop pyHash cs ov text sourceUrl title now (text.length + 1) 0 0

/- ## Context trimming (`ChatBot.trim_context`, chatbot.py lines 95-126)

`count_tokens` calls the external `tiktoken` tokenizer, so the token-counting
function is a parameter `tok` (rational-valued: the fallback estimate
`len(text.split()) * 1.3` is not an integer).  Text is `List Char`, matching
Python's sequence-of-code-points strings. -/

/-- Python `context.split('\n')`: split into lines at newline characters,
keeping empty segments (`"".split('\n') == ['']`). -/
def splitLines : List Char → List (List Char)
  | [] => [[]]
  | c :: cs =>
    match splitLines cs, c == '\n' with
    | r, true => [] :: r
    | [], false => [[c]]
    | h :: r, false => (c :: h) :: r

/-- The literal appended by `trim_context` when it truncated (line 124). -/
def truncationMarker : List Char :=
  "\n... (contexte tronqué pour respecter les limites de tokens)".toList

/-- The greedy accumulation loop of `trim_context` (lines 114-120): keep each
line while the running token total stays within `max_tokens`, stop at the
first line that does not fit. -/
def keepLines (tok : List Char → ℚ) (maxTokens : ℚ) : List (List Char) → ℚ → List (List Char)
  | [], _ => []
  | l :: ls, cur =>
    if cur + tok l ≤ maxTokens then l :: keepLines tok maxTokens ls (cur + tok l)
    else []

/-- `ChatBot.trim_context` (lines 95-126): return the context unchanged when
it fits the budget; otherwise keep a greedy prefix of whole lines, re-join
them with newlines, and append the truncation marker when the result is
shorter than the input. -/
def trimContext (tok : List Char → ℚ) (context : List Char) (maxTokens : ℚ) : List Char :=
  if tok context ≤ maxTokens then context
  else
    let trimmed := List.intercalate [ '\n' ] (keepLines tok maxTokens (splitLines context) 0)
    if trimmed.length < context.length then trimmed ++ truncationMarker else trimmed

/-- A concrete instance of the abstract tokenizer: one token per character.
Used to exhibit inputs on which `trim_context` overruns its budget. -/
def charCountTok (l : List Char) : ℚ := l.length

/- ## Conversation manager (`ChatBot.generate_response`, chatbot.py lines
183-274; `OllamaChatBot.generate_response`, ollama_chatbot.py lines 187-256)

The completion call is the external collaborator: its resolved outcome is a
parameter (`Except` of an error message or a completion).  `datetime.now()`
is the opaque parameter `now`. -/

/-- One entry of `conversation_history`: `{"role": ..., "content": ...}`. -/
structure Message where
  role : String
  content : String
deriving DecidableEq

/-- A search-result dictionary as produced by both vector-store backends and
consumed by `format_context_from_search_results`.  The metadata keys are
optional, mirroring the `.get(..., default)` accesses; `distance` is the pair
(numerator, squared denominator) representing the float `d.1 / sqrt d.2`
(a plain float distance `d` is embedded as `(d, 1)`). -/
structure SearchResultRecord where
  content : String
  sourceUrl : Option String := none
  title : Option String := none
  chunkIndex : Option Nat := none
  createdAt : Option String := none
  distance : ℚ × ℚ := (0, 1)
deriving DecidableEq

/-- Python `l[-n:]`: the most recent `n` elements (the whole list when it is
shorter). -/
def takeLast {α : Type} (n : Nat) (l : List α) : List α :=
  l.drop (l.length - n)

/-- The system-prompt template, the identical triple-quoted literal of
chatbot.py lines 60-77 and ollama_chatbot.py lines 51-68 (including the
trailing space after `questions` and the 8-space indentation). -/
def systemPromptTemplate : String :=
  "\n        Vous êtes un assistant IA intelligent et serviable qui aide les utilisateurs en répondant à leurs questions \n"
  ++ "        en utilisant les informations provenant de sites web qui ont été analysés et indexés.\n"
  ++ "        \n"
  ++ "        Instructions importantes:\n"
  ++ "        1. Utilisez principalement les informations fournies dans le contexte pour répondre aux questions\n"
  ++ "        2. Si l'information n'est pas disponible dans le contexte, indiquez-le clairement\n"
  ++ "        3. Soyez précis et informatif dans vos réponses\n"
  ++ "        4. Citez la source (URL) quand c'est pertinent\n"
  ++ "        5. Répondez en français de manière naturelle et conversationnelle\n"
  ++ "        6. Si vous n'êtes pas sûr d'une information, dites-le explicitement\n"
  ++ "        \n"
  ++ "        Contexte des documents analysés:\n"
  ++ "        {context}\n"
  ++ "        \n"
  ++ "        Conversation précédente:\n"
  ++ "        {conversation_history}\n"
  ++ "        "

/-- `format_context_from_search_results` (chatbot.py lines 128-157 and the
identical ollama_chatbot.py lines 132-161): one numbered block per result,
blocks joined with a newline. -/
def formatContextFromSearchResults (searchResults : List SearchResultRecord) : String :=
  if searchResults.isEmpty then
    "Aucun contexte pertinent trouvé dans les documents analysés."
  else
    let contextParts := searchResults.enum.map (fun p =>
      "\nDocument " ++ toString (p.1 + 1) ++ ":\nTitre: "
        ++ p.2.title.getD "Titre inconnu" ++ "\nSource: "
        ++ p.2.sourceUrl.getD "Source inconnue" ++ "\nContenu: "
        ++ p.2.content ++ "\n---\n")
    String.intercalate "\n" contextParts

/-- `format_conversation_history` (chatbot.py lines 159-181 and the identical
ollama_chatbot.py lines 163-185): render the last 6 entries; roles other than
`user`/`assistant` are skipped by the `if`/`elif`. -/
def formatConversationHistory (history : List Message) : String :=
  if history.isEmpty then "Aucune conversation précédente."
  else
    let recent := takeLast 6 history
    let parts := recent.filterMap (fun m =>
      if m.role = "user" then some ("Utilisateur: " ++ m.content)
      else if m.role = "assistant" then some ("Assistant: " ++ m.content)
      else none)
    String.intercalate "\n" parts

/-- The result of a successful OpenAI chat-completion call: the message
content and the three `usage` counters read by `generate_response`. -/
structure Completion where
  content : String
  promptTokens : Nat
  completionTokens : Nat
  totalTokens : Nat
deriving DecidableEq

/-- The dictionary returned by `ChatBot.generate_response`.  The success path
has no `error` key (`.get("error")` is falsy, modelled as `error := false`)
and the failure path has no `token_usage`/`sources_used`/`temperature` keys
(modelled as `none`). -/
structure ResponseData where
  response : String
  model : String
  timestamp : String
  error : Bool := false
  tokenUsage : Option (Nat × Nat × Nat) := none
  sourcesUsed : Option Nat := none
  temperature : Option ℚ := none
deriving DecidableEq

/-- The mutable state of a `ChatBot` relevant to `generate_response`. -/
structure ChatBotState where
  model : String
  temperature : ℚ
  conversationHistory : List Message
deriving DecidableEq

/-- The history update of both bots (chatbot.py lines 239-245,
ollama_chatbot.py lines 226-232): append the user and assistant turns, then
keep only the last 20 entries when the cap is exceeded. -/
def appendCapped (history : List Message) (question answer : String) : List Message :=
  let h := history ++ [⟨"user", question⟩, ⟨"assistant", answer⟩]
  if 20 < h.length then takeLast 20 h else h

/-- `ChatBot.generate_response` (chatbot.py lines 183-274).  The prompt is
assembled exactly as in the code (it is consumed only by the external
completion call, whose resolved outcome is the parameter `apiOutcome`); on
success the history is appended and capped and the success dictionary built;
on failure the state is returned unchanged with the error dictionary. -/
def generateResponse (tok : List Char → ℚ) (st : ChatBotState) (userQuestion : String)
    (searchResults : List SearchResultRecord) (apiOutcome : Except String Completion)
    (now : String) : ChatBotState × ResponseData :=
  let context :=
    if searchResults.isEmpty then "Aucun contexte spécifique fourni."
    else String.mk (trimContext tok (formatContextFromSearchResults searchResults).toList 3000)
  let conversationHistory := formatConversationHistory st.conversationHistory
  let _systemMessage :=
    (systemPromptTemplate.replace "{context}" context).replace
      "{conversation_history}" conversationHistory
  match apiOutcome with
  | .ok completion =>
    let newHist := appendCapped st.conversationHistory userQuestion completion.content
    ({ st with conversationHistory := newHist },
     { response := completion.content, model := st.model, timestamp := now,
       tokenUsage := some (completion.promptTokens, completion.completionTokens,
         completion.totalTokens),
       sourcesUsed := some (if searchResults.isEmpty then 0 else searchResults.length),
       temperature := some st.temperature })
  | .error e =>
    (st, { response := "Erreur lors de la génération de la réponse: " ++ e,
           error := true, timestamp := now, model := st.model })

/-- The mutable state of an `OllamaChatBot` relevant to `generate_response`. -/
structure OllamaState where
  model : String
  host : String
  conversationHistory : List Message
deriving DecidableEq

/-- The dictionary returned by `OllamaChatBot.generate_response` (no token
usage; carries the host on success). -/
structure OllamaResponseData where
  response : String
  model : String
  timestamp : String
  error : Bool := false
  sourcesUsed : Option Nat := none
  host : Option String := none
deriving DecidableEq

/-- `OllamaChatBot.generate_response` (ollama_chatbot.py lines 187-256): same
shape as the OpenAI bot but without context trimming and with a raw string
answer from the external Ollama call. -/
def ollamaGenerateResponse (st : OllamaState) (userQuestion : String)
    (searchResults : List SearchResultRecord) (apiOutcome : Except String String)
    (now : String) : OllamaState × OllamaResponseData :=
  let context :=
    if searchResults.isEmpty then "Aucun contexte spécifique fourni."
    else formatContextFromSearchResults searchResults
  let conversationHistory := formatConversationHistory st.conversationHistory
  let _fullPrompt :=
    (systemPromptTemplate.replace "{context}" context).replace
      "{conversation_history}" conversationHistory
    ++ "\n\nQuestion de l'utilisateur: " ++ userQuestion ++ "\n\nRéponse:"
  match apiOutcome with
  | .ok answer =>
    let newHist := appendCapped st.conversationHistory userQuestion answer
    ({ st with conversationHistory := newHist },
     { response := answer, model := st.model, timestamp := now,
       sourcesUsed := some (if searchResults.isEmpty then 0 else searchResults.length),
       host := some st.host })
  | .error e =>
    (st, { response := "Erreur lors de la génération de la réponse: " ++ e,
           error := true, timestamp := now, model := st.model })

/-- One successful `generate_response` call of the OpenAI bot: its question,
search results, the completion the API returned, and the wall-clock stamp. -/
structure ChatCall where
  question : String
  searchResults : List SearchResultRecord
  completion : Completion
  now : String

/-- Run a sequence of successful `generate_response` calls, threading the
state. -/
def runChatBot (tok : List Char → ℚ) (st : ChatBotState) : List ChatCall → ChatBotState
  | [] => st
  | c :: rest =>
    runChatBot tok
      (generateResponse tok st c.question c.searchResults (.ok c.completion) c.now).1 rest

/-- The stream of history entries appended by a sequence of successful calls
(a user turn then an assistant turn per call). -/
def callMessages (calls : List ChatCall) : List Message :=
  calls.flatMap (fun c => [⟨"user", c.question⟩, ⟨"assistant", c.completion.content⟩])

/-- One successful `generate_response` call of the Ollama bot. -/
structure OllamaCall where
  question : String
  searchResults : List SearchResultRecord
  answer : String
  now : String

/-- Run a sequence of successful Ollama `generate_response` calls. -/
def runOllamaBot (st : OllamaState) : List OllamaCall → OllamaState
  | [] => st
  | c :: rest =>
    runOllamaBot
      (ollamaGenerateResponse st c.question c.searchResults (.ok c.answer) c.now).1 rest

/-- The stream of history entries appended by a sequence of successful Ollama
calls. -/
def ollamaCallMessages (calls : List OllamaCall) : List Message :=
  calls.flatMap (fun c => [⟨"user", c.question⟩, ⟨"assistant", c.answer⟩])

/-- The 20-entry cap applied to a history list: unchanged while within the
cap, otherwise the most recent 20 entries. -/
def cap20 (l : List Message) : List Message :=
  if 20 < l.length then takeLast 20 l else l

/- ## FAISS backend (`FAISSVectorDB`, vector_database.py lines 289-385)

Stored float vectors are represented exactly: the pair `(v, s)` stands for
the float array `v / sqrt s` (componentwise), which is how
`embedding / np.linalg.norm(embedding)` is produced; `s` is the squared norm
of `v`, kept as a rational so the representation stays exact and computable.
When `s = 0` the numpy division is `0/0` and the stored array is NaN in every
component. -/

/-- Squared Euclidean norm (`np.linalg.norm(v) ** 2`) of a rational vector. -/
def vecNormSq (v : List ℚ) : ℚ := (v.map (fun x => x * x)).sum

/-- Squared L2 norm of the float array represented by `(v, s)`: the stored
components are `v i / sqrt s`, so the squared norm is `vecNormSq v / s`.
For `s = 0` the array is NaN (or empty) and carries no real norm; the
representation returns `0`, which in particular is not within `1e-6` of 1. -/
def repNormSq (p : List ℚ × ℚ) : ℚ := if p.2 = 0 then 0 else vecNormSq p.1 / p.2

/-- The in-memory state of `FAISSVectorDB`: the flat inner-product index rows
(in insertion order) and the parallel `documents` metadata list. -/
structure FAISSVectorDB where
  dimension : Nat
  index : List (List ℚ × ℚ)
  documents : List DocumentChunk
deriving DecidableEq

/-- `FAISSVectorDB.add_documents` (lines 307-326): every chunk carrying an
embedding is normalized (`chunk.embedding / np.linalg.norm(chunk.embedding)`,
represented by the pair `(embedding, vecNormSq embedding)`) and appended to
the index, the chunk itself appended to the parallel `documents` list; chunks
without an embedding are skipped.  `_save_index` is external disk I/O and
does not change the state. -/
def faissAddDocuments (db : FAISSVectorDB) (chunks : List DocumentChunk) : FAISSVectorDB :=
  let embedded := chunks.filterMap (fun c => c.embedding.map (fun v => (c, v)))
  { db with
    index := db.index ++ embedded.map (fun p => (p.2, vecNormSq p.2)),
    documents := db.documents ++ embedded.map (fun p => p.1) }

/-- Inner product of two float arrays (`np.dot` on rows of the flat index). -/
def dotProduct (v w : List ℚ) : ℚ := (List.zipWith (fun a b => a * b) v w).sum

/-- Comparison of two scores in normalized representation: `(a, b)` stands
for the real number `a / sqrt b`, and for positive `b`, `d` this proposition
is exactly `a / sqrt b ≤ c / sqrt d` (theorem `scoreLE_iff_real` below). -/
def scoreLE (x y : ℚ × ℚ) : Prop :=
  (x.1 ≤ 0 ∧ 0 ≤ y.1) ∨
  (0 ≤ x.1 ∧ 0 ≤ y.1 ∧ x.1 ^ 2 * y.2 ≤ y.1 ^ 2 * x.2) ∨
  (x.1 ≤ 0 ∧ y.1 ≤ 0 ∧ y.1 ^ 2 * x.2 ≤ x.1 ^ 2 * y.2)

instance : ∀ x y, Decidable (scoreLE x y) := fun x y => by
  unfold scoreLE; infer_instance

/-- Insert a (score, row-index) pair into a list sorted by descending score. -/
def insertDesc (p : (ℚ × ℚ) × Nat) : List ((ℚ × ℚ) × Nat) → List ((ℚ × ℚ) × Nat)
  | [] => [p]
  | q :: l => if scoreLE q.1 p.1 then p :: q :: l else q :: insertDesc p l

/-- Sort (score, row-index) pairs by descending score. -/
def sortDesc : List ((ℚ × ℚ) × Nat) → List ((ℚ × ℚ) × Nat)
  | [] => []
  | p :: l => insertDesc p (sortDesc l)

/-- The external `faiss.IndexFlatIP.search` contract on the modelled index:
score every stored row against the (normalized) query by inner product —
`dot (v / sqrt s) (q / sqrt t) = dot v q / sqrt (s * t)`, represented by the
pair `(dot v q, s * t)` — rank descending, and return the first `k`
(distance, row-index) pairs. -/
def indexSearch (index : List (List ℚ × ℚ)) (q : List ℚ × ℚ) (k : Nat) :
    List ((ℚ × ℚ) × Nat) :=
  (sortDesc (index.enum.map
    (fun p => ((dotProduct p.2.1 q.1, p.2.2 * q.2), p.1)))).take k

/-- `FAISSVectorDB.search` (lines 328-364): empty result on an empty index;
otherwise normalize the query (represented `(qv, vecNormSq qv)`), search for
`min(n_results, ntotal)` neighbours, and build one result record per hit
whose row index lies inside the parallel `documents` list. -/
def faissSearch (db : FAISSVectorDB) (queryEmbedding : List ℚ) (nResults : Nat) :
    List SearchResultRecord :=
  if db.index.length = 0 then []
  else
    let qrep := (queryEmbedding, vecNormSq queryEmbedding)
    let hits := indexSearch db.index qrep (min nResults db.index.length)
    hits.filterMap (fun h =>
      (db.documents.get? h.2).map (fun chunk =>
        { content := String.mk chunk.content, sourceUrl := some chunk.sourceUrl,
          title := some chunk.title, chunkIndex := some chunk.chunkIndex,
          createdAt := chunk.createdAt, distance := h.1 }))

/- ## Chroma backend and the ingestion pipeline
(`ChromaVectorDB.add_documents`, vector_database.py lines 229-255;
`VectorDatabase.add_documents_from_scraped_data`, lines 410-439;
`RobustChromaVectorDB.add_documents`, robust_vector_db.py lines 202-230)

`collection.add` is the external ChromaDB call; its outcome for a given
(ids, documents, metadatas) triple is the parameter `collectionAdd`. -/

/-- The metadata dictionary built per chunk (lines 236-241). -/
structure ChunkMetadata where
  sourceUrl : String
  title : String
  chunkIndex : Nat
  createdAt : Option String
deriving DecidableEq

/-- `ChromaVectorDB.add_documents` (lines 229-255): nothing to do on an empty
chunk list; otherwise call `collection.add` with ids, contents and metadata,
and on failure log and **re-raise** (`raise`, line 255). -/
def chromaAddDocuments
    (collectionAdd : List String → List (List Char) → List ChunkMetadata → Except String Unit)
    (chunks : List DocumentChunk) : Except String Unit :=
  if chunks.isEmpty then .ok ()
  else
    let ids := chunks.map (fun c => c.id)
    let documents := chunks.map (fun c => c.content)
    let metadatas := chunks.map (fun c =>
      ChunkMetadata.mk c.sourceUrl c.title c.chunkIndex c.createdAt)
    match collectionAdd ids documents metadatas with
    | .ok _ => .ok ()
    | .error e => .error e

/-- A scraped page record (web_scraper.py lines 41-48); `scraped_at` is the
opaque timestamp, `language`/`links` are carried but unused by ingestion. -/
structure ScrapedPage where
  url : String
  title : String
  content : List Char
  language : String := ""
  scrapedAt : Option String := none
  links : List String := []

/-- The chunk accumulation of `add_documents_from_scraped_data` (lines
417-435): chunk each page, embed the chunk texts with the embedding provider
(`embedFn`, the resolved result of `generate_embeddings`, which catches its
own exceptions), and attach one embedding per chunk — `zip` leaves any excess
chunks without an embedding, and the page's whole chunk list (mutated in
place in Python) is accumulated. -/
def pipelineChunks (pyHash : String → Int) (cs ov : Nat)
    (embedFn : List (List Char) → List (List ℚ)) (now : Option String)
    (pages : List ScrapedPage) : List DocumentChunk :=
  pages.flatMap (fun page =>
    let chunks := chunkText (pyHash page.url) cs ov page.content page.url page.title now
    let embeddings := embedFn (chunks.map (fun c => c.content))
    (chunks.zip embeddings).map (fun p => { p.1 with embedding := some p.2 })
      ++ chunks.drop embeddings.length)

/-- `VectorDatabase.add_documents_from_scraped_data` (lines 410-439) with the
Chroma backend: accumulate all chunks, then call the backend `add_documents`
once for the whole batch; any exception from it propagates. -/
def addDocumentsFromScrapedData (pyHash : String → Int) (cs ov : Nat)
    (embedFn : List (List Char) → List (List ℚ)) (now : Option String)
    (collectionAdd : List String → List (List Char) → List ChunkMetadata → Except String Unit)
    (pages : List ScrapedPage) : Except String Unit :=
  chromaAddDocuments collectionAdd (pipelineChunks pyHash cs ov embedFn now pages)

/-- The recovery loop of `RobustChromaVectorDB.add_documents` (robust_vector_db.py
lines 215-230): `for i in range(0, len(documents), batch_size)`, re-adding each
slice and logging (not raising) per-batch failures.  Returns the logged
`(batch start index, error)` pairs. -/
def robustBatchLoop {M : Type}
    (collectionAdd : List String → List (List Char) → List M → Except String Unit)
    (documents : List (List Char)) (metadatas : List M) (ids : List String)
    (batchSize : Nat) (i : Nat) : List (Nat × String) :=
  if h : i < documents.length ∧ 0 < batchSize then
    (match collectionAdd ((ids.drop i).take batchSize)
        ((documents.drop i).take batchSize) ((metadatas.drop i).take batchSize) with
      | .ok _ => []
      | .error e => [(i, e)])
    ++ robustBatchLoop collectionAdd documents metadatas ids batchSize (i + batchSize)
  else []
termination_by documents.length - i
decreasing_by
  omega

/-- `RobustChromaVectorDB.add_documents` (robust_vector_db.py lines 202-230):
try one bulk `collection.add`; on failure, retry in slices of
`max(1, len(documents) // 10)`, logging each failing slice and continuing —
every raise site is inside a `try`/`except`, so the call itself returns
normally (`Except.ok`, carrying the logged batch failures). -/
def robustAddDocuments {M : Type}
    (collectionAdd : List String → List (List Char) → List M → Except String Unit)
    (documents : List (List Char)) (metadatas : List M) (ids : List String) :
    Except String (List (Nat × String)) :=
  match collectionAdd ids documents metadatas with
  | .ok _ => .ok []
  | .error _ =>
    .ok (robustBatchLoop collectionAdd documents metadatas ids
      (max 1 (documents.length / 10)) 0)

/- ## The `VectorDatabase` façade (vector_database.py lines 387-473) -/

/-- The backend held by a `VectorDatabase`: the Chroma collection handle is
external and opaque; the FAISS backend carries its in-memory state. -/
inductive Backend where
  | chroma : Backend
  | faiss : FAISSVectorDB → Backend
deriving DecidableEq

/-- `VectorDatabase.__init__` (lines 390-408): `"chroma"` and `"chromadb"`
are routed to the Chroma backend, `"faiss"` to the FAISS backend (whose
initial state, loaded from disk, is the parameter `faissInit`); anything else
raises `ValueError`. -/
def vectorDatabaseInit (dbType : String) (faissInit : FAISSVectorDB) :
    Except String (String × Backend) :=
  if dbType = "chroma" ∨ dbType = "chromadb" then .ok (dbType, Backend.chroma)
  else if dbType = "faiss" then .ok (dbType, Backend.faiss faissInit)
  else .error ("Unsupported database type: " ++ dbType)

/-- `VectorDatabase.search_similar` (lines 441-459): dispatch on `db_type`,
matching only the exact strings `"chroma"` and `"faiss"`; every other value —
including `"chromadb"`, which the constructor accepts — falls through to
`return []`.  `chromaQuery` is the external `ChromaVectorDB.search`;
`embedQuery` is the embedding provider applied to the query text. -/
def searchSimilar (dbType : String) (backend : Backend)
    (chromaQuery : String → Nat → List SearchResultRecord)
    (embedQuery : String → List ℚ)
    (query : String) (nResults : Nat) : List SearchResultRecord :=
  if dbType = "chroma" then chromaQuery query nResults
  else if dbType = "faiss" then
    match backend with
    | Backend.faiss db => faissSearch db (embedQuery query) nResults
    | Backend.chroma => []
  else []

/- ## Deterministic hash-fallback embedding
(`RobustEmbeddingFunction._generate_deterministic_embeddings`,
robust_vector_db.py lines 140-167)

A Python `str` is a sequence of code points that may contain lone surrogates;
`text.encode()` (UTF-8) raises `UnicodeEncodeError` on those.  `hashlib.md5`
is a fixed pure function, implemented here in full so the embedding is a
closed computable term. -/

/-- A Python `str`: its code points (each below `0x110000`; surrogates are
permitted inside a `str`). -/
abbrev PyStr : Type := List Nat

/-- UTF-8 encoding of one code point, raising on the surrogate range
U+D800–U+DFFF (as Python `str.encode` does) and on values beyond Unicode. -/
def utf8EncodeChar (c : Nat) : Except String (List Nat) :=
  if c < 128 then .ok [c]
  else if c < 2048 then .ok [192 + c / 64, 128 + c % 64]
  else if 55296 ≤ c ∧ c ≤ 57343 then
    .error "UnicodeEncodeError: surrogates not allowed"
  else if c < 65536 then
    .ok [224 + c / 4096, 128 + (c / 64) % 64, 128 + c % 64]
  else if c < 1114112 then
    .ok [240 + c / 262144, 128 + (c / 4096) % 64, 128 + (c / 64) % 64, 128 + c % 64]
  else .error "invalid code point"

/-- Python `text.encode()`: UTF-8 bytes of the whole string, or the exception
raised at the first unencodable code point. -/
def pyEncodeUtf8 : PyStr → Except String (List Nat)
  | [] => .ok []
  | c :: cs => do
    let b ← utf8EncodeChar c
    let rest ← pyEncodeUtf8 cs
    .ok (b ++ rest)

/-- 32-bit wraparound addition. -/
def add32 (a b : Nat) : Nat := (a + b) % 4294967296

/-- 32-bit left rotation (for `x < 2^32` and `s ≤ 32`): the low `32 - s` bits
shifted up plus the high `s` bits shifted down. -/
def rotl32 (x s : Nat) : Nat := (x * 2 ^ s + x / 2 ^ (32 - s)) % 4294967296

/-- The 64 per-round shift amounts of MD5. -/
def md5s : List Nat :=
  [7, 12, 17, 22, 7, 12, 17, 22, 7, 12, 17, 22, 7, 12, 17, 22,
   5, 9, 14, 20, 5, 9, 14, 20, 5, 9, 14, 20, 5, 9, 14, 20,
   4, 11, 16, 23, 4, 11, 16, 23, 4, 11, 16, 23, 4, 11, 16, 23,
   6, 10, 15, 21, 6, 10, 15, 21, 6, 10, 15, 21, 6, 10, 15, 21]

/-- The 64 sine-derived MD5 constants `floor(2^32 * abs(sin(i + 1)))`. -/
def md5K : List Nat :=
  [3614090360, 3905402710, 606105819, 3250441966,
   4118548399, 1200080426, 2821735955, 4249261313,
   1770035416, 2336552879, 4294925233, 2304563134,
   1804603682, 4254626195, 2792965006, 1236535329,
   4129170786, 3225465664, 643717713, 3921069994,
   3593408605, 38016083, 3634488961, 3889429448,
   568446438, 3275163606, 4107603335, 1163531501,
   2850285829, 4243563512, 1735328473, 2368359562,
   4294588738, 2272392833, 1839030562, 4259657740,
   2763975236, 1272893353, 4139469664, 3200236656,
   681279174, 3936430074, 3572445317, 76029189,
   3654602809, 3873151461, 530742520, 3299628645,
   4096336452, 1126891415, 2878612391, 4237533241,
   1700485571, 2399980690, 4293915773, 2240044497,
   1873313359, 4264355552, 2734768916, 1309151649,
   4149444226, 3174756917, 718787259, 3951481745]

/-- Little-endian bytes of a number, `k` bytes long. -/
def leBytes : Nat → Nat → List Nat
  | 0, _ => []
  | k + 1, n => n % 256 :: leBytes k (n / 256)

/-- Little-endian decomposition of a 64-byte block into 16 32-bit words. -/
def toWords : List Nat → List Nat
  | b0 :: b1 :: b2 :: b3 :: rest =>
    (b0 + 256 * b1 + 65536 * b2 + 16777216 * b3) :: toWords rest
  | _ => []

/-- MD5 padding: append `0x80`, zero-fill to 56 mod 64, then the original
bit length as 8 little-endian bytes. -/
def md5Pad (msg : List Nat) : List Nat :=
  let len := msg.length
  msg ++ [128] ++ List.replicate ((56 + 64 - (len + 1) % 64) % 64) 0
    ++ leBytes 8 ((len * 8) % 18446744073709551616)

/-- One MD5 round on the state `(a, b, c, d)` with message words `m`. -/
def md5Round (m : List Nat) (st : Nat × Nat × Nat × Nat) (i : Nat) :
    Nat × Nat × Nat × Nat :=
  let (a, b, c, d) := st
  let mask := 4294967295
  let fg : Nat × Nat :=
    if i < 16 then ((b &&& c) ||| ((b ^^^ mask) &&& d), i)
    else if i < 32 then ((d &&& b) ||| ((d ^^^ mask) &&& c), (5 * i + 1) % 16)
    else if i < 48 then (b ^^^ c ^^^ d, (3 * i + 5) % 16)
    else (c ^^^ (b ||| (d ^^^ mask)), (7 * i) % 16)
  let tmp := rotl32 (add32 (add32 (add32 a fg.1) (md5K.getD i 0)) (m.getD fg.2 0))
    (md5s.getD i 0)
  (d, add32 b tmp, b, c)

/-- Process one 64-byte block: 64 rounds, then add the block result to the
incoming state wordwise. -/
def md5ProcessBlock (st : Nat × Nat × Nat × Nat) (block : List Nat) :
    Nat × Nat × Nat × Nat :=
  let r := (List.range 64).foldl (md5Round (toWords block)) st
  (add32 st.1 r.1, add32 st.2.1 r.2.1, add32 st.2.2.1 r.2.2.1, add32 st.2.2.2 r.2.2.2)

/-- Fold the padded message through `md5ProcessBlock`, 64 bytes at a time
(structural recursion on a fuel bound: each step consumes at least one byte,
so fuel equal to the byte count is always enough). -/
def md5Chunks : (Nat × Nat × Nat × Nat) → Nat → List Nat → Nat × Nat × Nat × Nat
  | st, _, [] => st
  | st, 0, _ => st
  | st, fuel + 1, b :: rest =>
    md5Chunks (md5ProcessBlock st ((b :: rest).take 64)) fuel ((b :: rest).drop 64)

/-- The 16-byte MD5 digest of a byte string. -/
def md5Bytes (msg : List Nat) : List Nat :=
  let padded := md5Pad msg
  let r := md5Chunks (1732584193, 4023233417, 2562383102, 271733878)
    padded.length padded
  leBytes 4 r.1 ++ leBytes 4 r.2.1 ++ leBytes 4 r.2.2.1 ++ leBytes 4 r.2.2.2

/-- `hexdigest()`: the 32 hex digits of the digest, as values 0–15. -/
def md5HexDigits (msg : List Nat) : List Nat :=
  (md5Bytes msg).flatMap (fun byte => [byte / 16, byte % 16])

/-- Python slice `l[a:b]` for nonnegative bounds. -/
def pySlice (l : List Nat) (a b : Nat) : List Nat := (l.take b).drop a

/-- One hash chunk of the value loop (lines 151-154):
`text_hash[(i*2) % 32 : (i*2+2) % 32]`, replaced by the first two digits when
the wrapped slice is shorter than 2 characters (which happens at `i = 15`,
where the end index wraps to 0 and the slice is empty). -/
def detChunk (hx : List Nat) (i : Nat) : List Nat :=
  let c := pySlice hx ((i * 2) % hx.length) ((i * 2 + 2) % hx.length)
  if c.length < 2 then pySlice hx 0 2 else c

/-- `int(chunk, 16) / 255.0` (lines 156-157), exactly. -/
def chunkVal (c : List Nat) : ℚ := ((c.foldl (fun acc d => 16 * acc + d) 0 : Nat) : ℚ) / 255

/-- The 384 pre-normalization values (lines 150-158): for each of the 24 hash
chunks, 16 copies of its value. -/
def detVals (hx : List Nat) : List ℚ :=
  (List.range 24).flatMap (fun i => List.replicate 16 (chunkVal (detChunk hx i)))

/-- `_generate_deterministic_embeddings` for one text.  The `ok` pair
`(vals, normSq)` represents the float list the Python code appends:
`(np.array(vals) / norm).tolist()[:384]`, i.e. `vals / sqrt normSq`
componentwise (`[:384]` is a no-op on the 384-entry vector).  When every
value is zero the `if norm > 0` normalization is skipped and
`vector.tolist()` is called on a plain Python list, raising
`AttributeError`; a text with no UTF-8 encoding raises `UnicodeEncodeError`
inside `hashlib.md5(text.encode())`. -/
def detEmbedOne (t : PyStr) : Except String (List ℚ × ℚ) := do
  let bytes ← pyEncodeUtf8 t
  let vals := detVals (md5HexDigits bytes)
  let ns := vecNormSq vals
  if 0 < ns then .ok (vals, ns)
  else .error "AttributeError: list object has no attribute tolist"

/-- `_generate_deterministic_embeddings` (lines 140-167) over a batch of
texts: one embedding per text, the first exception aborting the loop. -/
def generateDeterministicEmbeddings : List PyStr → Except String (List (List ℚ × ℚ))
  | [] => .ok []
  | t :: ts => do
    let v ← detEmbedOne t
    let rest ← generateDeterministicEmbeddings ts
    .ok (v :: rest)

/-!
## Theorems

Everything below this point is a statement about the definitions above.
-/

/- ### Properties of `pyStrip` -/

theorem pyStrip_length_le (l : List Char) : (pyStrip l).length ≤ l.length := by
  have h1 := (List.rdropWhile_prefix isPyWhitespace (l.dropWhile isPyWhitespace)).length_le
  have h2 := (List.dropWhile_sublist (p := isPyWhitespace) (l := l)).length_le
  exact le_trans h1 h2

theorem dropWhile_head_false {α : Type} (p : α → Bool) :
    ∀ (l : List α) (a : α) (t' : List α), List.dropWhile p l = a :: t' → p a = false := by
  intro l
  induction l with
  | nil => intro a t' h; simp [List.dropWhile] at h
  | cons b l ih =>
    intro a t' h
    rw [List.dropWhile_cons] at h
    split at h
    · exact ih _ _ h
    next hb =>
      cases h
      simpa using hb

theorem pyStrip_dropWhile_eq (l : List Char) :
    List.dropWhile isPyWhitespace (pyStrip l) = pyStrip l := by
  cases hr : pyStrip l with
  | nil => simp
  | cons a r' =>
    have hpre : pyStrip l <+: l.dropWhile isPyWhitespace :=
      List.rdropWhile_prefix isPyWhitespace (l.dropWhile isPyWhitespace)
    rw [hr] at hpre
    obtain ⟨t, ht⟩ := hpre
    have ha : isPyWhitespace a = false :=
      dropWhile_head_false isPyWhitespace l a (r' ++ t) (by rw [← ht]; simp)
    simp [List.dropWhile_cons, ha]

theorem pyStrip_idem (l : List Char) : pyStrip (pyStrip l) = pyStrip l := by
  show List.rdropWhile isPyWhitespace (List.dropWhile isPyWhitespace (pyStrip l)) = pyStrip l
  rw [pyStrip_dropWhile_eq]
  exact List.rdropWhile_idempotent isPyWhitespace (l.dropWhile isPyWhitespace)

/- ### Properties of the chunker -/

theorem scanBack_le (text : List Char) (limit5 : Nat) : ∀ e, scanBack text limit5 e ≤ e := by
  intro e
  induction e using Nat.strong_induction_on with
  | _ e ih =>
    rw [scanBack]
    split
    next h => exact le_trans (ih (e - 1) (by omega)) (by omega)
    next => exact le_rfl

theorem chunkEnd_le (cs : Nat) (text : List Char) (start : Nat) :
    chunkEnd cs text start ≤ start + cs := by
  unfold chunkEnd
  simp only []
  split
  · split
    · exact le_rfl
    · exact scanBack_le text _ _
  · exact le_rfl

theorem chunkLoop_content_length_le (pyHash : Int) (cs ov : Nat) (text : List Char)
    (u t : String) (now : Option String) :
    ∀ fuel start idx c, c ∈ chunkLoop pyHash cs ov text u t now fuel start idx →
      c.content.length ≤ cs := by
  intro fuel
  induction fuel with
  | zero => intro start idx c hc; simp [chunkLoop] at hc
  | succ fuel ih =>
    intro start idx c hc
    rw [chunkLoop] at hc
    simp only [] at hc
    split at hc
    · split at hc
      · exact ih _ _ _ hc
      · rcases List.mem_cons.mp hc with h | h
        · subst h
          have h1 : (pyStrip ((text.drop start).take (chunkEnd cs text start - start))).length
              ≤ ((text.drop start).take (chunkEnd cs text start - start)).length :=
            pyStrip_length_le _
          have h2 : ((text.drop start).take (chunkEnd cs text start - start)).length
              ≤ chunkEnd cs text start - start := by
            rw [List.length_take]
            exact min_le_left _ _
          have h3 := chunkEnd_le cs text start
          simp only []
          omega
        · exact ih _ _ _ h
    · simp at hc

theorem chunkLoop_content_stripped (pyHash : Int) (cs ov : Nat) (text : List Char)
    (u t : String) (now : Option String) :
    ∀ fuel start idx c, c ∈ chunkLoop pyHash cs ov text u t now fuel start idx →
      c.content ≠ [] ∧ pyStrip c.content = c.content := by
  intro fuel
  induction fuel with
  | zero => intro start idx c hc; simp [chunkLoop] at hc
  | succ fuel ih =>
    intro start idx c hc
    rw [chunkLoop] at hc
    simp only [] at hc
    split at hc
    · split at hc
      next hemp => exact ih _ _ _ hc
      next hemp =>
        rcases List.mem_cons.mp hc with h | h
        · subst h
          refine ⟨by simpa [List.isEmpty_iff] using hemp, pyStrip_idem _⟩
        · exact ih _ _ _ h
    · simp at hc

theorem chunkLoop_map_index (pyHash : Int) (cs ov : Nat) (text : List Char)
    (u t : String) (now : Option String) :
    ∀ fuel start idx,
      (chunkLoop pyHash cs ov text u t now fuel start idx).map DocumentChunk.chunkIndex =
        List.range' idx (chunkLoop pyHash cs ov text u t now fuel start idx).length := by
  intro fuel
  induction fuel with
  | zero => intro start idx; simp [chunkLoop]
  | succ fuel ih =>
    intro start idx
    rw [chunkLoop]
    simp only []
    split
    · split
      · exact ih _ _
      · simp only [List.map_cons, List.length_cons, List.range'_succ]
        rw [ih]
    · simp

/-- Claim C5 (confirmed): every chunk produced by `chunk_text` has content of
length at most `chunk_size` (including the single-chunk case for texts of
length at most `chunk_size`), and the chunks carry strictly increasing
`chunk_index` starting at 0 (their indices are exactly `0, 1, 2, ...`). -/
theorem C5_chunk_size_bound_and_increasing_indices
    (pyHash : Int) (cs ov : Nat) (text : List Char) (u t : String) (now : Option String) :
    (∀ c ∈ chunkText pyHash cs ov text u t now, c.content.length ≤ cs) ∧
    (chunkText pyHash cs ov text u t now).map DocumentChunk.chunkIndex =
      List.range (chunkText pyHash cs ov text u t now).length := by
  unfold chunkText
  split
  next hle =>
    constructor
    · intro c hc
      simp only [List.mem_singleton] at hc
      subst hc
      exact hle
    · simp [List.range_succ]
  next hgt =>
    refine ⟨fun c hc => chunkLoop_content_length_le pyHash cs ov text u t now _ _ _ c hc, ?_⟩
    rw [chunkLoop_map_index, List.range_eq_range']

/-- Claim C4 counterexample: on the empty text, `chunk_text` does **not**
return an empty sequence; it returns a single chunk whose content is the empty
string (which is also empty after stripping), because the `len(text) <=
chunk_size` branch returns the text whole without any emptiness check. -/
theorem C4_counterexample :
    (chunkText 0 1000 200 [] "" "" none).map DocumentChunk.content = [[]] ∧
    chunkText 0 1000 200 [] "" "" none ≠ [] ∧
    pyStrip [] = [] := by
  refine ⟨rfl, ?_, rfl⟩
  simp [chunkText, chunkId]

/-- Claim C4 as amended: for any text of length at most `chunk_size`
(in particular the empty text) `chunk_text` returns exactly one chunk carrying
the text verbatim — possibly empty — rather than an empty sequence; only in
the multi-chunk path (text longer than `chunk_size`) is every produced chunk
guaranteed nonempty after whitespace stripping. -/
theorem C4_amended (pyHash : Int) (cs ov : Nat) (text : List Char)
    (u t : String) (now : Option String) :
    (text.length ≤ cs →
      chunkText pyHash cs ov text u t now =
        [{ id := chunkId pyHash 0, content := text, sourceUrl := u, title := t,
           chunkIndex := 0, createdAt := now }]) ∧
    (cs < text.length →
      ∀ c ∈ chunkText pyHash cs ov text u t now,
        c.content ≠ [] ∧ pyStrip c.content = c.content) := by
  constructor
  · intro hle
    simp [chunkText, hle]
  · intro hgt c hc
    rw [chunkText, if_neg (by omega)] at hc
    exact chunkLoop_content_stripped pyHash cs ov text u t now _ _ _ c hc

/-- Witness for `C4_amended`: both branches applied at concrete inputs
(the empty text for the single-chunk branch; a 5-character text with
`chunk_size` 3 for the multi-chunk branch). -/
theorem C4_amended_witness :
    (chunkText 0 1000 200 [] "" "" none =
      [{ id := chunkId 0 0, content := [], sourceUrl := "", title := "",
         chunkIndex := 0, createdAt := none }]) ∧
    (∀ c ∈ chunkText 0 3 1 [ 'a', 'b', ' ', 'c', 'd' ] "" "" none,
        c.content ≠ [] ∧ pyStrip c.content = c.content) :=
  ⟨(C4_amended 0 1000 200 [] "" "" none).1 (by decide),
   (C4_amended 0 3 1 [ 'a', 'b', ' ', 'c', 'd' ] "" "" none).2 (by decide)⟩

/- ### Properties of `trim_context` -/

theorem keepLines_sum_le (tok : List Char → ℚ) (maxTokens : ℚ) :
    ∀ (lines : List (List Char)) (cur : ℚ),
      cur + ((keepLines tok maxTokens lines cur).map tok).sum ≤ maxTokens ∨
      keepLines tok maxTokens lines cur = [] := by
  intro lines
  induction lines with
  | nil => intro cur; right; rfl
  | cons l ls ih =>
    intro cur
    rw [keepLines]
    split
    next hfit =>
      left
      rcases ih (cur + tok l) with h | h
      · simp only [List.map_cons, List.sum_cons]
        linarith
      · simp only [h, List.map_cons, List.map_nil, List.sum_cons, List.sum_nil]
        linarith
    next hfit => right; rfl

/-- Claim C3 counterexample: with a tokenizer counting one token per character
and budget 2, the context `"ab\ncd"` (5 tokens, over budget) is trimmed to the
kept line `"ab"` **plus the appended truncation marker**, so the returned
string has far more than 2 tokens: the output of `trim_context` is not within
the token budget. -/
theorem C3_counterexample :
    2 < charCountTok "ab\ncd".toList ∧
    ¬ charCountTok (trimContext charCountTok "ab\ncd".toList 2) ≤ 2 ∧
    (∃ pre, trimContext charCountTok "ab\ncd".toList 2 = pre ++ truncationMarker) := by
  refine ⟨of_decide_eq_true (by with_unfolding_all rfl),
    of_decide_eq_true (by with_unfolding_all rfl),
    ⟨"ab".toList, by with_unfolding_all rfl⟩⟩

/-- Claim C3 as amended: when the context exceeds the budget, `trim_context`
keeps a greedy prefix of whole lines whose token counts sum to at most the
budget, and the returned string ends with the truncation marker whenever the
kept portion is shorter than the input; the joining newlines and the appended
marker itself are outside that accounting, so the full returned string may
exceed the budget (and when nothing was dropped by character count, no marker
appears). -/
theorem C3_amended (tok : List Char → ℚ) (context : List Char) (maxTokens : ℚ)
    (hmax : 0 ≤ maxTokens) (hover : maxTokens < tok context) :
    ((keepLines tok maxTokens (splitLines context) 0).map tok).sum ≤ maxTokens ∧
    ((List.intercalate [ '\n' ] (keepLines tok maxTokens (splitLines context) 0)).length
        < context.length →
      trimContext tok context maxTokens =
        List.intercalate [ '\n' ] (keepLines tok maxTokens (splitLines context) 0)
          ++ truncationMarker) ∧
    (context.length
        ≤ (List.intercalate [ '\n' ] (keepLines tok maxTokens (splitLines context) 0)).length →
      trimContext tok context maxTokens =
        List.intercalate [ '\n' ] (keepLines tok maxTokens (splitLines context) 0)) := by
  refine ⟨?_, ?_, ?_⟩
  · rcases keepLines_sum_le tok maxTokens (splitLines context) 0 with h | h
    · linarith
    · simp [h, hmax]
  · intro hlt
    rw [trimContext, if_neg (by linarith)]
    simp only [if_pos hlt]
  · intro hge
    rw [trimContext, if_neg (by linarith)]
    simp only [if_neg (by omega : ¬ (List.intercalate [ '\n' ]
      (keepLines tok maxTokens (splitLines context) 0)).length < context.length)]

/-- Witness for `C3_amended` at the concrete tokenizer, context and budget of
the counterexample. -/
theorem C3_amended_witness :
    ((keepLines charCountTok 2 (splitLines "ab\ncd".toList) 0).map charCountTok).sum ≤ 2 ∧
    ((List.intercalate [ '\n' ] (keepLines charCountTok 2 (splitLines "ab\ncd".toList) 0)).length
        < "ab\ncd".toList.length →
      trimContext charCountTok "ab\ncd".toList 2 =
        List.intercalate [ '\n' ] (keepLines charCountTok 2 (splitLines "ab\ncd".toList) 0)
          ++ truncationMarker) ∧
    ("ab\ncd".toList.length
        ≤ (List.intercalate [ '\n' ]
            (keepLines charCountTok 2 (splitLines "ab\ncd".toList) 0)).length →
      trimContext charCountTok "ab\ncd".toList 2 =
        List.intercalate [ '\n' ] (keepLines charCountTok 2 (splitLines "ab\ncd".toList) 0)) :=
  C3_amended charCountTok "ab\ncd".toList 2 (by norm_num)
    (of_decide_eq_true (by with_unfolding_all rfl))

/- ### Properties of the conversation manager -/

theorem takeLast_length {α : Type} (n : Nat) (l : List α) :
    (takeLast n l).length = min n l.length := by
  simp only [takeLast, List.length_drop]
  omega

theorem cap20_length_le (l : List Message) : (cap20 l).length ≤ 20 := by
  unfold cap20
  split
  · rw [takeLast_length]; omega
  next h => omega

theorem takeLast_append_takeLast {α : Type} (n : Nat) (x y : List α) (h : n ≤ x.length) :
    takeLast n (takeLast n x ++ y) = takeLast n (x ++ y) := by
  unfold takeLast
  rw [← List.drop_append_of_le_length (by omega : x.length - n ≤ x.length)]
  rw [List.drop_drop]
  simp only [List.length_drop, List.length_append]
  congr 1
  omega

theorem cap20_append (x y : List Message) : cap20 (cap20 x ++ y) = cap20 (x ++ y) := by
  by_cases hx : 20 < x.length
  · have hcx : cap20 x = takeLast 20 x := by rw [cap20, if_pos hx]
    rw [hcx]
    have hlen : (takeLast 20 x).length = 20 := by rw [takeLast_length]; omega
    by_cases hy : y = []
    · subst hy
      simp only [List.append_nil]
      rw [cap20, if_neg (by omega), cap20, if_pos (by simpa using hx)]
    · have hylen : 0 < y.length := List.length_pos.mpr hy
      rw [cap20, if_pos (by rw [List.length_append, hlen]; omega)]
      rw [cap20, if_pos (by rw [List.length_append]; omega)]
      exact takeLast_append_takeLast 20 x y (by omega)
  · have hcx : cap20 x = x := by rw [cap20, if_neg hx]
    rw [hcx]

theorem appendCapped_eq_cap20 (h : List Message) (q a : String) :
    appendCapped h q a = cap20 (h ++ [⟨"user", q⟩, ⟨"assistant", a⟩]) := rfl

theorem runChatBot_history (tok : List Char → ℚ) :
    ∀ (calls : List ChatCall) (st : ChatBotState), st.conversationHistory.length ≤ 20 →
      (runChatBot tok st calls).conversationHistory =
        cap20 (st.conversationHistory ++ callMessages calls) := by
  intro calls
  induction calls with
  | nil =>
    intro st h
    simp only [runChatBot, callMessages, List.flatMap_nil, List.append_nil]
    rw [cap20, if_neg (by omega)]
  | cons c rest ih =>
    intro st h
    rw [runChatBot]
    have hstep :
        ((generateResponse tok st c.question c.searchResults
            (.ok c.completion) c.now).1).conversationHistory
        = appendCapped st.conversationHistory c.question c.completion.content := rfl
    rw [ih _ (by rw [hstep, appendCapped_eq_cap20]; exact cap20_length_le _)]
    rw [hstep, appendCapped_eq_cap20, cap20_append]
    simp [callMessages, List.append_assoc]

theorem runOllamaBot_history :
    ∀ (calls : List OllamaCall) (st : OllamaState), st.conversationHistory.length ≤ 20 →
      (runOllamaBot st calls).conversationHistory =
        cap20 (st.conversationHistory ++ ollamaCallMessages calls) := by
  intro calls
  induction calls with
  | nil =>
    intro st h
    simp only [runOllamaBot, ollamaCallMessages, List.flatMap_nil, List.append_nil]
    rw [cap20, if_neg (by omega)]
  | cons c rest ih =>
    intro st h
    rw [runOllamaBot]
    have hstep :
        ((ollamaGenerateResponse st c.question c.searchResults
            (.ok c.answer) c.now).1).conversationHistory
        = appendCapped st.conversationHistory c.question c.answer := rfl
    rw [ih _ (by rw [hstep, appendCapped_eq_cap20]; exact cap20_length_le _)]
    rw [hstep, appendCapped_eq_cap20, cap20_append]
    simp [ollamaCallMessages, List.append_assoc]

/-- Claim C6 (confirmed): starting from a fresh bot, any sequence of
successful `generate_response` calls that appends more than 20 history
entries leaves exactly the most recent 20 entries in
`conversation_history`, the oldest discarded first — for both the OpenAI
bot and the Ollama bot. -/
theorem C6_history_capping (tok : List Char → ℚ) (model host : String) (temp : ℚ)
    (calls : List ChatCall) (ocalls : List OllamaCall)
    (h : 20 < (callMessages calls).length)
    (ho : 20 < (ollamaCallMessages ocalls).length) :
    ((runChatBot tok ⟨model, temp, []⟩ calls).conversationHistory
        = takeLast 20 (callMessages calls) ∧
      (runChatBot tok ⟨model, temp, []⟩ calls).conversationHistory.length = 20) ∧
    ((runOllamaBot ⟨model, host, []⟩ ocalls).conversationHistory
        = takeLast 20 (ollamaCallMessages ocalls) ∧
      (runOllamaBot ⟨model, host, []⟩ ocalls).conversationHistory.length = 20) := by
  have h1 := runChatBot_history tok calls ⟨model, temp, []⟩ (by simp)
  have h2 := runOllamaBot_history ocalls ⟨model, host, []⟩ (by simp)
  simp only [List.nil_append] at h1 h2
  rw [cap20, if_pos h] at h1
  rw [cap20, if_pos ho] at h2
  refine ⟨⟨h1, ?_⟩, ⟨h2, ?_⟩⟩
  · rw [h1, takeLast_length]; omega
  · rw [h2, takeLast_length]; omega

/-- Witness for `C6_history_capping`: 11 successful calls append 22 history
entries (more than the cap of 20). -/
theorem C6_history_capping_witness :
    ((runChatBot charCountTok ⟨"gpt-3.5-turbo", 7/10, []⟩
        (List.replicate 11 ⟨"q", [], ⟨"a", 1, 2, 3⟩, "t"⟩)).conversationHistory
      = takeLast 20 (callMessages (List.replicate 11 ⟨"q", [], ⟨"a", 1, 2, 3⟩, "t"⟩)) ∧
     (runChatBot charCountTok ⟨"gpt-3.5-turbo", 7/10, []⟩
        (List.replicate 11 ⟨"q", [], ⟨"a", 1, 2, 3⟩, "t"⟩)).conversationHistory.length = 20) ∧
    ((runOllamaBot ⟨"llama3.1", "http://localhost:11434", []⟩
        (List.replicate 11 ⟨"q", [], "a", "t"⟩)).conversationHistory
      = takeLast 20 (ollamaCallMessages (List.replicate 11 ⟨"q", [], "a", "t"⟩)) ∧
     (runOllamaBot ⟨"llama3.1", "http://localhost:11434", []⟩
        (List.replicate 11 ⟨"q", [], "a", "t"⟩)).conversationHistory.length = 20) :=
  C6_history_capping charCountTok "gpt-3.5-turbo" "http://localhost:11434" (7/10)
    (List.replicate 11 ⟨"q", [], ⟨"a", 1, 2, 3⟩, "t"⟩)
    (List.replicate 11 ⟨"q", [], "a", "t"⟩)
    (by simp [callMessages])
    (by simp [ollamaCallMessages])

/-- Claim C7 (confirmed): when the completion call fails, `generate_response`
of either bot returns the state unchanged (the conversation history is not
mutated) together with a dictionary flagged `error = true` that carries the
human-readable message built from the exception and the current timestamp —
it does not raise. -/
theorem C7_completion_failure_preserves_history (tok : List Char → ℚ)
    (st : ChatBotState) (q : String) (rs : List SearchResultRecord) (e now : String)
    (ost : OllamaState) (oq : String) (ors : List SearchResultRecord) (oe onow : String) :
    generateResponse tok st q rs (.error e) now =
      (st, { response := "Erreur lors de la génération de la réponse: " ++ e,
             model := st.model, timestamp := now, error := true }) ∧
    ollamaGenerateResponse ost oq ors (.error oe) onow =
      (ost, { response := "Erreur lors de la génération de la réponse: " ++ oe,
              model := ost.model, timestamp := onow, error := true }) :=
  ⟨rfl, rfl⟩

/- ### Properties of the FAISS normalization (claim C2) -/

theorem vecNormSq_replicate_zero (n : Nat) : vecNormSq (List.replicate n (0:ℚ)) = 0 := by
  simp [vecNormSq, List.map_replicate]

theorem vecNormSq_nonneg (v : List ℚ) : 0 ≤ vecNormSq v := by
  apply List.sum_nonneg
  intro x hx
  obtain ⟨y, _, rfl⟩ := List.mem_map.mp hx
  exact mul_self_nonneg y

/-- Claim C2 counterexample: adding a chunk whose provider embedding is the
zero vector (the documented fallback `np.zeros(384)` of
`_generate_sentence_transformer_embeddings`) stores the representation of
`0 / np.linalg.norm(0) = 0/0`, a NaN array: its squared-norm representation
is `0`, nowhere near `1 ± 1e-6`, and its zero-norm flag (`p.2 = 0`) marks the
NaN division — the stored vector is not a valid unit vector. -/
theorem C2_counterexample :
    ∃ p ∈ (faissAddDocuments ⟨384, [], []⟩
        [{ id := "0_0", content := [], sourceUrl := "", title := "", chunkIndex := 0,
           embedding := some (List.replicate 384 (0:ℚ)), createdAt := none }]).index,
      ¬ |repNormSq p - 1| ≤ 1 / 1000000 ∧ p.2 = 0 := by
  refine ⟨(List.replicate 384 (0:ℚ), vecNormSq (List.replicate 384 (0:ℚ))), ?_, ?_, ?_⟩
  · exact List.mem_singleton_self _
  · rw [repNormSq, if_pos (vecNormSq_replicate_zero 384)]
    norm_num
  · exact vecNormSq_replicate_zero 384

/-- Claim C2 as amended: every vector stored by the FAISS `add_documents`
whose source embedding has nonzero norm is exactly unit (squared norm 1, in
particular within `1e-6` of 1); a zero-norm source embedding is stored as the
`0/0` NaN representation, which is not a unit vector. -/
theorem C2_amended (db : FAISSVectorDB) (chunks : List DocumentChunk)
    (hinv : ∀ p ∈ db.index, p.2 = vecNormSq p.1) :
    ∀ p ∈ (faissAddDocuments db chunks).index,
      p.2 = vecNormSq p.1 ∧
      (vecNormSq p.1 ≠ 0 → repNormSq p = 1) ∧
      (vecNormSq p.1 = 0 → p.2 = 0 ∧ repNormSq p = 0) := by
  intro p hp
  have hps : p.2 = vecNormSq p.1 := by
    rw [faissAddDocuments] at hp
    simp only [List.mem_append] at hp
    rcases hp with hp | hp
    · exact hinv p hp
    · simp only [List.mem_map] at hp
      obtain ⟨q, hq, rfl⟩ := hp
      rfl
  refine ⟨hps, ?_, ?_⟩
  · intro hnz
    rw [repNormSq, if_neg (by rw [hps]; exact hnz), hps]
    exact div_self hnz
  · intro hz
    refine ⟨by rw [hps, hz], ?_⟩
    rw [repNormSq, if_pos (by rw [hps, hz])]

/-- Witness for `C2_amended`: adding one chunk embedded as `[3/5, 4/5]` to an
empty index stores a vector of squared norm exactly 1. -/
theorem C2_amended_witness :
    repNormSq ([(3:ℚ)/5, 4/5], vecNormSq [(3:ℚ)/5, 4/5]) = 1 :=
  (C2_amended ⟨2, [], []⟩
    [{ id := "0_0", content := [], sourceUrl := "", title := "", chunkIndex := 0,
       embedding := some [(3:ℚ)/5, 4/5], createdAt := none }]
    (by intro p hp; simp at hp)
    ([(3:ℚ)/5, 4/5], vecNormSq [(3:ℚ)/5, 4/5])
    (List.mem_singleton_self _)).2.1
    (by simp [vecNormSq]; norm_num)

/- ### Chroma ingestion propagation and robust sub-batching (claim C1) -/

/-- Claim C1 counterexample: with a Chroma collection whose `add` fails, one
scraped page makes `add_documents_from_scraped_data` propagate the exception
(the Chroma backend's `add_documents` logs and re-raises it; the pipeline has
no sub-batch isolation at all): the ingestion aborts instead of continuing. -/
theorem C1_counterexample :
    addDocumentsFromScrapedData (fun _ => 0) 1000 200 (fun ts => ts.map (fun _ => [1]))
      none (fun _ _ _ => .error "boom") [⟨"u", "t", "contenu".toList, "", none, []⟩]
      = .error "boom" := by
  with_unfolding_all rfl

/-- Claim C1 as amended: a failure of the underlying `collection.add` makes
`ChromaVectorDB.add_documents` re-raise and therefore aborts
`add_documents_from_scraped_data` for the whole batch (no isolation there);
the sub-batch isolation described by the specification lives only in
`RobustChromaVectorDB.add_documents`, which retries a failed bulk add in
`max(1, n // 10)`-sized slices, logs failing slices, and always returns
normally. -/
theorem C1_amended (pyHash : String → Int) (cs ov : Nat)
    (embedFn : List (List Char) → List (List ℚ)) (now : Option String)
    (collectionAdd : List String → List (List Char) → List ChunkMetadata → Except String Unit)
    (pages : List ScrapedPage) (e : String)
    (hne : pipelineChunks pyHash cs ov embedFn now pages ≠ [])
    (hfail : collectionAdd
        ((pipelineChunks pyHash cs ov embedFn now pages).map (fun c => c.id))
        ((pipelineChunks pyHash cs ov embedFn now pages).map (fun c => c.content))
        ((pipelineChunks pyHash cs ov embedFn now pages).map (fun c =>
          ChunkMetadata.mk c.sourceUrl c.title c.chunkIndex c.createdAt)) = .error e) :
    addDocumentsFromScrapedData pyHash cs ov embedFn now collectionAdd pages = .error e ∧
    ∀ (M : Type) (add : List String → List (List Char) → List M → Except String Unit)
      (documents : List (List Char)) (metadatas : List M) (ids : List String),
      ∃ logs, robustAddDocuments add documents metadatas ids = .ok logs := by
  constructor
  · rw [addDocumentsFromScrapedData, chromaAddDocuments,
      if_neg (by simpa [List.isEmpty_iff] using hne)]
    simp only []
    rw [hfail]
  · intro M add docs metas ids
    rw [robustAddDocuments]
    cases add ids docs metas with
    | ok u => exact ⟨[], rfl⟩
    | error err => exact ⟨_, rfl⟩

/-- Witness for `C1_amended` at the concrete failing collection of the
counterexample. -/
theorem C1_amended_witness :
    (addDocumentsFromScrapedData (fun _ => 0) 1000 200 (fun ts => ts.map (fun _ => [1]))
        none (fun _ _ _ => .error "boom") [⟨"u", "t", "contenu".toList, "", none, []⟩]
      = .error "boom") ∧
    ∀ (M : Type) (add : List String → List (List Char) → List M → Except String Unit)
      (documents : List (List Char)) (metadatas : List M) (ids : List String),
      ∃ logs, robustAddDocuments add documents metadatas ids = .ok logs :=
  C1_amended (fun _ => 0) 1000 200 (fun ts => ts.map (fun _ => [1])) none
    (fun _ _ _ => .error "boom") [⟨"u", "t", "contenu".toList, "", none, []⟩] "boom"
    (of_decide_eq_true (by with_unfolding_all rfl))
    rfl

/- ### The façade dispatch (claim C10) -/

/-- Claim C10 (confirmed): the constructor accepts `db_type = "chromadb"` and
routes it to the Chroma backend, but `search_similar` dispatches only on the
exact strings `"chroma"` and `"faiss"`, so with `db_type = "chromadb"` every
search falls through to `return []` — regardless of the backend state, the
collection contents, the embedding provider, the query, or `n_results`. -/
theorem C10_chromadb_search_always_empty (faissInit : FAISSVectorDB) :
    vectorDatabaseInit "chromadb" faissInit = .ok ("chromadb", Backend.chroma) ∧
    ∀ (backend : Backend) (chromaQuery : String → Nat → List SearchResultRecord)
      (embedQuery : String → List ℚ) (query : String) (nResults : Nat),
      searchSimilar "chromadb" backend chromaQuery embedQuery query nResults = [] := by
  constructor
  · rw [vectorDatabaseInit, if_pos (Or.inr rfl)]
  · intro backend cq eq q n
    unfold searchSimilar
    rw [if_neg (by decide), if_neg (by decide)]

/- ### Properties of the FAISS search (claim C9) -/

theorem mul_sqrt_eq_sqrt_sq_mul (u w : ℝ) (hu : 0 ≤ u) :
    u * Real.sqrt w = Real.sqrt (u ^ 2 * w) := by
  rw [Real.sqrt_mul (sq_nonneg u), Real.sqrt_sq hu]

/-- The decidable comparison `scoreLE` coincides with the real comparison of
the scores it represents: for positive squared denominators, `scoreLE x y`
holds exactly when `x.1 / sqrt x.2 ≤ y.1 / sqrt y.2` over the reals. -/
theorem scoreLE_iff_real (x y : ℚ × ℚ) (hx : 0 < x.2) (hy : 0 < y.2) :
    scoreLE x y ↔
      (x.1 : ℝ) / Real.sqrt (x.2 : ℚ) ≤ (y.1 : ℝ) / Real.sqrt (y.2 : ℚ) := by
  obtain ⟨a, b⟩ := x
  obtain ⟨c, d⟩ := y
  simp only at hx hy ⊢
  have hbR : (0:ℝ) < (b : ℚ) := by exact_mod_cast hx
  have hdR : (0:ℝ) < (d : ℚ) := by exact_mod_cast hy
  have hsb : (0:ℝ) < Real.sqrt (b:ℚ) := Real.sqrt_pos.mpr hbR
  have hsd : (0:ℝ) < Real.sqrt (d:ℚ) := Real.sqrt_pos.mpr hdR
  rw [div_le_div_iff hsb hsd]
  unfold scoreLE
  simp only
  constructor
  · rintro (⟨ha, hc⟩ | ⟨ha, hc, hle⟩ | ⟨ha, hc, hle⟩)
    · have haR : (a:ℝ) ≤ 0 := by exact_mod_cast ha
      have hcR : (0:ℝ) ≤ (c:ℚ) := by exact_mod_cast hc
      calc (a:ℝ) * Real.sqrt (d:ℚ) ≤ 0 :=
            mul_nonpos_iff.mpr (Or.inr ⟨haR, hsd.le⟩)
        _ ≤ (c:ℝ) * Real.sqrt (b:ℚ) := mul_nonneg hcR hsb.le
    · have haR : (0:ℝ) ≤ (a:ℚ) := by exact_mod_cast ha
      have hcR : (0:ℝ) ≤ (c:ℚ) := by exact_mod_cast hc
      have hleR : ((a:ℝ)) ^ 2 * (d:ℚ) ≤ ((c:ℝ)) ^ 2 * (b:ℚ) := by exact_mod_cast hle
      rw [mul_sqrt_eq_sqrt_sq_mul _ _ haR, mul_sqrt_eq_sqrt_sq_mul _ _ hcR]
      exact Real.sqrt_le_sqrt hleR
    · have haR : (a:ℝ) ≤ 0 := by exact_mod_cast ha
      have hcR : (c:ℝ) ≤ 0 := by exact_mod_cast hc
      have hleR : ((c:ℝ)) ^ 2 * (b:ℚ) ≤ ((a:ℝ)) ^ 2 * (d:ℚ) := by exact_mod_cast hle
      have key : (-(c:ℝ)) * Real.sqrt (b:ℚ) ≤ (-(a:ℝ)) * Real.sqrt (d:ℚ) := by
        rw [mul_sqrt_eq_sqrt_sq_mul _ _ (by linarith), mul_sqrt_eq_sqrt_sq_mul _ _ (by linarith)]
        simpa [neg_pow] using Real.sqrt_le_sqrt hleR
      linarith
  · intro h
    rcases le_total a 0 with ha | ha <;> rcases le_total c 0 with hc | hc
    · -- a ≤ 0, c ≤ 0: third branch
      refine Or.inr (Or.inr ⟨ha, hc, ?_⟩)
      have haR : (a:ℝ) ≤ 0 := by exact_mod_cast ha
      have hcR : (c:ℝ) ≤ 0 := by exact_mod_cast hc
      have key : (-(c:ℝ)) * Real.sqrt (b:ℚ) ≤ (-(a:ℝ)) * Real.sqrt (d:ℚ) := by linarith
      have hsq := pow_le_pow_left
        (mul_nonneg (by linarith) (Real.sqrt_nonneg _)) key 2
      rw [mul_pow, mul_pow, Real.sq_sqrt hbR.le, Real.sq_sqrt hdR.le,
        neg_pow, neg_pow] at hsq
      simp only [neg_one_pow_eq_one_iff_even, even_two, Even.neg_pow] at hsq
      have hsq' : ((c:ℝ)) ^ 2 * (b:ℚ) ≤ ((a:ℝ)) ^ 2 * (d:ℚ) := by nlinarith [hsq]
      exact_mod_cast hsq'
    · exact Or.inl ⟨ha, hc⟩
    · -- 0 ≤ a, c ≤ 0: only possible when both scores vanish
      have haR : (0:ℝ) ≤ (a:ℚ) := by exact_mod_cast ha
      have hcR : (c:ℝ) ≤ 0 := by exact_mod_cast hc
      have h1 : (0:ℝ) ≤ (a:ℝ) * Real.sqrt (b:ℚ) := by positivity
      have h2 : (c:ℝ) * Real.sqrt (b:ℚ) ≤ 0 :=
        mul_nonpos_iff.mpr (Or.inr ⟨hcR, hsb.le⟩)
      have ha0 : (a:ℝ) * Real.sqrt (d:ℚ) = 0 := by
        have h3 : (0:ℝ) ≤ (a:ℝ) * Real.sqrt (d:ℚ) := by positivity
        nlinarith
      have haz : (a:ℝ) = 0 := by
        rcases mul_eq_zero.mp ha0 with h' | h'
        · exact h'
        · exact absurd h' (ne_of_gt hsd)
      have hcz : (c:ℝ) = 0 := by
        have h4 : (c:ℝ) * Real.sqrt (b:ℚ) = 0 := by nlinarith
        rcases mul_eq_zero.mp h4 with h' | h'
        · exact h'
        · exact absurd h' (ne_of_gt hsb)
      refine Or.inr (Or.inl ⟨by exact_mod_cast haR, ?_, ?_⟩)
      · have : (c:ℚ) = 0 := by exact_mod_cast hcz
        simp [this]
      · have hA : (a:ℚ) = 0 := by exact_mod_cast haz
        have hC : (c:ℚ) = 0 := by exact_mod_cast hcz
        simp [hA, hC]
    · -- 0 ≤ a, 0 ≤ c: second branch by squaring
      refine Or.inr (Or.inl ⟨ha, hc, ?_⟩)
      have haR : (0:ℝ) ≤ (a:ℚ) := by exact_mod_cast ha
      have hcR : (0:ℝ) ≤ (c:ℚ) := by exact_mod_cast hc
      rw [mul_sqrt_eq_sqrt_sq_mul _ _ haR, mul_sqrt_eq_sqrt_sq_mul _ _ hcR] at h
      have hsq := pow_le_pow_left (Real.sqrt_nonneg _) h 2
      rw [Real.sq_sqrt (by positivity), Real.sq_sqrt (by positivity)] at hsq
      exact_mod_cast hsq

theorem scoreLE_total (x y : ℚ × ℚ) (hx : 0 < x.2) (hy : 0 < y.2) :
    scoreLE x y ∨ scoreLE y x := by
  rw [scoreLE_iff_real x y hx hy, scoreLE_iff_real y x hy hx]
  exact le_total _ _

theorem scoreLE_trans (x y z : ℚ × ℚ) (hx : 0 < x.2) (hy : 0 < y.2) (hz : 0 < z.2) :
    scoreLE x y → scoreLE y z → scoreLE x z := by
  rw [scoreLE_iff_real x y hx hy, scoreLE_iff_real y z hy hz, scoreLE_iff_real x z hx hz]
  exact le_trans

theorem insertDesc_length (p : (ℚ × ℚ) × Nat) :
    ∀ l, (insertDesc p l).length = l.length + 1 := by
  intro l
  induction l with
  | nil => rfl
  | cons q l ih =>
    rw [insertDesc]
    split
    · simp
    · simp [ih]

theorem sortDesc_length : ∀ l, (sortDesc l).length = l.length := by
  intro l
  induction l with
  | nil => rfl
  | cons p l ih => rw [sortDesc, insertDesc_length, ih]; rfl

theorem insertDesc_mem (p x : (ℚ × ℚ) × Nat) :
    ∀ l, x ∈ insertDesc p l → x = p ∨ x ∈ l := by
  intro l
  induction l with
  | nil => intro h; simp [insertDesc] at h; exact Or.inl h
  | cons q l ih =>
    intro h
    rw [insertDesc] at h
    split at h
    · rcases List.mem_cons.mp h with h | h
      · exact Or.inl h
      · exact Or.inr h
    · rcases List.mem_cons.mp h with h | h
      · exact Or.inr (h ▸ List.mem_cons_self q l)
      · rcases ih h with h | h
        · exact Or.inl h
        · exact Or.inr (List.mem_cons_of_mem q h)

theorem sortDesc_mem (x : (ℚ × ℚ) × Nat) : ∀ l, x ∈ sortDesc l → x ∈ l := by
  intro l
  induction l with
  | nil => intro h; simp [sortDesc] at h
  | cons p l ih =>
    intro h
    rw [sortDesc] at h
    rcases insertDesc_mem p x _ h with h | h
    · exact h ▸ List.mem_cons_self p l
    · exact List.mem_cons_of_mem p (ih h)

theorem insertDesc_pairwise (p : (ℚ × ℚ) × Nat) :
    ∀ l, 0 < p.1.2 → (∀ x ∈ l, 0 < x.1.2) →
      List.Pairwise (fun a b => scoreLE b.1 a.1) l →
      List.Pairwise (fun a b => scoreLE b.1 a.1) (insertDesc p l) := by
  intro l
  induction l with
  | nil => intro _ _ _; simp [insertDesc]
  | cons q l ih =>
    intro hp hl hpw
    rw [insertDesc]
    split
    next hqp =>
      obtain ⟨hhead, htail⟩ := List.pairwise_cons.mp hpw
      refine List.Pairwise.cons ?_ hpw
      intro x hx
      rcases List.mem_cons.mp hx with rfl | hx
      · exact hqp
      · exact scoreLE_trans x.1 q.1 p.1 (hl x (List.mem_cons_of_mem q hx))
          (hl q (List.mem_cons_self q l)) hp (hhead x hx) hqp
    next hqp =>
      obtain ⟨hhead, htail⟩ := List.pairwise_cons.mp hpw
      refine List.Pairwise.cons ?_
        (ih hp (fun x hx => hl x (List.mem_cons_of_mem q hx)) htail)
      intro x hx
      rcases insertDesc_mem p x l hx with rfl | hx
      · rcases scoreLE_total q.1 x.1 (hl q (List.mem_cons_self q l)) hp with h | h
        · exact absurd h hqp
        · exact h
      · exact hhead x hx

theorem sortDesc_pairwise :
    ∀ l, (∀ x ∈ l, 0 < x.1.2) →
      List.Pairwise (fun a b => scoreLE b.1 a.1) (sortDesc l) := by
  intro l
  induction l with
  | nil => intro _; simp [sortDesc]
  | cons p l ih =>
    intro hl
    rw [sortDesc]
    exact insertDesc_pairwise p (sortDesc l) (hl p (List.mem_cons_self p l))
      (fun x hx => hl x (List.mem_cons_of_mem p (sortDesc_mem x l hx)))
      (ih (fun x hx => hl x (List.mem_cons_of_mem p hx)))

theorem pairwise_filterMap_transport {α β : Type} {R : α → α → Prop} {S : β → β → Prop}
    (f : α → Option β)
    (hf : ∀ a b x y, R a b → f a = some x → f b = some y → S x y) :
    ∀ l, List.Pairwise R l → List.Pairwise S (l.filterMap f) := by
  intro l h
  induction h with
  | nil => simp
  | @cons a l hhead htail ih =>
    rw [List.filterMap_cons]
    cases hfa : f a with
    | none => exact ih
    | some x =>
      refine List.Pairwise.cons ?_ ih
      intro y hy
      obtain ⟨b, hb, hfb⟩ := List.mem_filterMap.mp hy
      exact hf a b x y (hhead b hb) hfa hfb

/-- Claim C9 (confirmed): FAISS-backend `search` returns at most
`min(n_results, ntotal)` results; the empty index yields the empty list (not
an error); and when the stored rows and the query have nonzero norm the
returned records are ordered by the backend's distance — each result's score
is at least the next one's, in the real sense made precise by
`scoreLE_iff_real`. -/
theorem C9_faiss_search_clamped_ordered (db : FAISSVectorDB) (qv : List ℚ) (n : Nat) :
    (faissSearch db qv n).length ≤ min n db.index.length ∧
    (db.index.length = 0 → faissSearch db qv n = []) ∧
    ((∀ p ∈ db.index, 0 < p.2) → 0 < vecNormSq qv →
      List.Pairwise (fun a b => scoreLE b.distance a.distance) (faissSearch db qv n)) := by
  refine ⟨?_, ?_, ?_⟩
  · rw [faissSearch]
    split
    · simp
    · simp only []
      refine le_trans (List.length_filterMap_le _ _) ?_
      unfold indexSearch
      rw [List.length_take, sortDesc_length, List.length_map, List.enum_length]
      omega
  · intro h
    rw [faissSearch, if_pos h]
  · intro hpos hq
    rw [faissSearch]
    split
    · exact List.Pairwise.nil
    · simp only []
      refine pairwise_filterMap_transport (R := fun a b => scoreLE b.1 a.1) _
        ?_ _ ?_
      · intro u v x y huv hfu hfv
        cases hgu : db.documents.get? u.2 with
        | none => rw [hgu] at hfu; simp at hfu
        | some cu =>
          cases hgv : db.documents.get? v.2 with
          | none => rw [hgv] at hfv; simp at hfv
          | some cv =>
            rw [hgu] at hfu
            rw [hgv] at hfv
            simp only [Option.map_some'] at hfu hfv
            injection hfu with hfu
            injection hfv with hfv
            rw [← hfu, ← hfv]
            exact huv
      · unfold indexSearch
        apply List.Pairwise.sublist (List.take_sublist _ _)
        apply sortDesc_pairwise
        intro x hx
        obtain ⟨p, hp, rfl⟩ := List.mem_map.mp hx
        have hmem : p.2 ∈ db.index := by
          have := List.mem_enum_iff_get?.mp hp
          exact List.get?_mem this
        exact mul_pos (hpos p.2 hmem) hq

/-- Witness for `C9_faiss_search_clamped_ordered`: a two-row index of unit
vectors queried with a unit query. -/
theorem C9_faiss_search_witness :
    (faissSearch ⟨2, [([1, 0], 1), ([0, 1], 1)], []⟩ [1, 0] 5).length ≤
        min 5 ([([1, 0], 1), ([0, 1], 1)] : List (List ℚ × ℚ)).length ∧
    (([([1, 0], 1), ([0, 1], 1)] : List (List ℚ × ℚ)).length = 0 →
      faissSearch ⟨2, [([1, 0], 1), ([0, 1], 1)], []⟩ [1, 0] 5 = []) ∧
    List.Pairwise (fun a b => scoreLE b.distance a.distance)
      (faissSearch ⟨2, [([1, 0], 1), ([0, 1], 1)], []⟩ [1, 0] 5) := by
  have h := C9_faiss_search_clamped_ordered ⟨2, [([1, 0], 1), ([0, 1], 1)], []⟩ [1, 0] 5
  exact ⟨h.1, h.2.1, h.2.2
    (by intro p hp; fin_cases hp <;> norm_num)
    (by norm_num [vecNormSq])⟩

/- ### Properties of the deterministic hash embedding (claim C8) -/

theorem detVals_length (hx : List Nat) : (detVals hx).length = 384 := by
  simp [detVals]
  rw [show (List.length ∘ fun i =>
      [chunkVal (detChunk hx i), chunkVal (detChunk hx i), chunkVal (detChunk hx i),
        chunkVal (detChunk hx i), chunkVal (detChunk hx i), chunkVal (detChunk hx i),
        chunkVal (detChunk hx i), chunkVal (detChunk hx i), chunkVal (detChunk hx i),
        chunkVal (detChunk hx i), chunkVal (detChunk hx i), chunkVal (detChunk hx i),
        chunkVal (detChunk hx i), chunkVal (detChunk hx i), chunkVal (detChunk hx i),
        chunkVal (detChunk hx i)])
    = fun _ => 16 from funext fun i => rfl]
  simp [List.map_const']

theorem vecNormSq_cons (x : ℚ) (v : List ℚ) :
    vecNormSq (x :: v) = x * x + vecNormSq v := by
  simp [vecNormSq]

theorem vecNormSq_pos_of_mem (v : List ℚ) (x : ℚ) (hx : x ∈ v) (hxne : x ≠ 0) :
    0 < vecNormSq v := by
  induction v with
  | nil => simp at hx
  | cons y v ih =>
    rw [vecNormSq_cons]
    rcases List.mem_cons.mp hx with rfl | hx
    · exact add_pos_of_pos_of_nonneg (mul_self_pos.mpr hxne) (vecNormSq_nonneg v)
    · exact add_pos_of_nonneg_of_pos (mul_self_nonneg y) (ih hx)

theorem detVals_normSq_pos (hx : List Nat) (h : chunkVal (detChunk hx 0) ≠ 0) :
    0 < vecNormSq (detVals hx) := by
  apply vecNormSq_pos_of_mem _ (chunkVal (detChunk hx 0)) _ h
  rw [detVals]
  apply List.mem_flatMap.mpr
  exact ⟨0, by simp, List.mem_replicate.mpr ⟨by omega, rfl⟩⟩

/-- Claim C8 counterexample: the deterministic fallback raises on the Python
string consisting of the lone surrogate U+D800 — `text.encode()` inside
`hashlib.md5(text.encode())` raises `UnicodeEncodeError` — so it is not true
that the function never raises for every text. -/
theorem C8_counterexample :
    generateDeterministicEmbeddings [[55296]] =
      .error "UnicodeEncodeError: surrogates not allowed" := rfl

/-- Claim C8 as amended: for every text that UTF-8-encodes (no lone
surrogates) and whose hash-derived value vector is nonzero (equivalently,
whose MD5 digest does not have its first fifteen bytes all zero — true of
every known input), the fallback deterministically returns the same vector of
exactly 384 entries on every call: embedding the same text twice in one batch
yields bit-identical results, each derived from the MD5 digest of the text
with every value in the unit interval scaled by `1/255` and then normalized. -/
theorem C8_amended (t : PyStr) (bs : List Nat)
    (henc : pyEncodeUtf8 t = .ok bs)
    (hpos : 0 < vecNormSq (detVals (md5HexDigits bs))) :
    detEmbedOne t =
      .ok (detVals (md5HexDigits bs), vecNormSq (detVals (md5HexDigits bs))) ∧
    (detVals (md5HexDigits bs)).length = 384 ∧
    generateDeterministicEmbeddings [t, t] =
      .ok [(detVals (md5HexDigits bs), vecNormSq (detVals (md5HexDigits bs))),
           (detVals (md5HexDigits bs), vecNormSq (detVals (md5HexDigits bs)))] := by
  have h1 : detEmbedOne t =
      .ok (detVals (md5HexDigits bs), vecNormSq (detVals (md5HexDigits bs))) := by
    unfold detEmbedOne
    rw [henc]
    show (if 0 < vecNormSq (detVals (md5HexDigits bs)) then
        Except.ok (detVals (md5HexDigits bs), vecNormSq (detVals (md5HexDigits bs)))
      else Except.error "AttributeError: list object has no attribute tolist")
      = Except.ok (detVals (md5HexDigits bs), vecNormSq (detVals (md5HexDigits bs)))
    rw [if_pos hpos]
  refine ⟨h1, detVals_length _, ?_⟩
  simp only [generateDeterministicEmbeddings, h1]
  rfl

set_option maxRecDepth 2000 in
/-- Witness for `C8_amended` at the text `"abc"` (code points 97, 98, 99):
its UTF-8 encoding is itself and the MD5-derived value vector is nonzero. -/
theorem C8_amended_witness :
    detEmbedOne [97, 98, 99] =
      .ok (detVals (md5HexDigits [97, 98, 99]),
        vecNormSq (detVals (md5HexDigits [97, 98, 99]))) ∧
    (detVals (md5HexDigits [97, 98, 99])).length = 384 ∧
    generateDeterministicEmbeddings [[97, 98, 99], [97, 98, 99]] =
      .ok [(detVals (md5HexDigits [97, 98, 99]),
              vecNormSq (detVals (md5HexDigits [97, 98, 99]))),
           (detVals (md5HexDigits [97, 98, 99]),
              vecNormSq (detVals (md5HexDigits [97, 98, 99])))] :=
  C8_amended [97, 98, 99] [97, 98, 99] rfl
    (detVals_normSq_pos _ (by
      rw [show md5HexDigits [97, 98, 99] =
        [9, 0, 0, 1, 5, 0, 9, 8, 3, 12, 13, 2, 4, 15, 11, 0,
         13, 6, 9, 6, 3, 15, 7, 13, 2, 8, 14, 1, 7, 15, 7, 2] from by
          with_unfolding_all rfl]
      rw [show detChunk
        [9, 0, 0, 1, 5, 0, 9, 8, 3, 12, 13, 2, 4, 15, 11, 0,
         13, 6, 9, 6, 3, 15, 7, 13, 2, 8, 14, 1, 7, 15, 7, 2] 0 = [9, 0] from rfl]
      norm_num [chunkVal]))

end RagPipeline
